import Mathlib

/-!
# Sandbox front end (`src/frontend/app.js`)

A shallow embedding of the browser script. The page is a record holding the
children of the two DOM regions the script writes to, the `drag-over` class of
the sandbox area, the `equipmentById` map and the `sandboxDragDepth` counter.
Every function of the script that mutates the page is a function on pages;
event handlers are the cases of `step`.

The script looks the empty-state message up with `document.getElementById`,
which searches the whole document, and it fills the library nodes through
`innerHTML` with text that comes from the provider. The model therefore tracks,
for every library node, how many elements carrying the id
`sandbox-empty-message` the HTML parser built inside it.
-/

namespace Frontend

/-! ## Data model -/

/-- An equipment record as delivered by the API (`block` in the script). -/
structure Item where
  id : String
  name : String
  description : String
  category : String
deriving DecidableEq, Repr

/-- What the script takes from the browser and from the markup of the page,
neither being part of the sources. Markup assigned to `innerHTML` is taken to be
inert apart from the ids it declares. -/
structure Host where
  /-- the number of outermost elements with id `sandbox-empty-message` that the
  HTML parser builds from a string assigned to `innerHTML` -/
  emptyMessageIds : String → Nat
  /-- whether the library region comes before the sandbox area in document
  order -/
  libraryFirst : Bool

/-- The `div.sandbox-block` element built by `addBlockToSandbox`: its
`data-block-id` attribute, the text of its `strong` and `p` children and the
`aria-label` of its remove button. -/
structure BlockElement where
  dataBlockId : String
  title : String
  description : String
  removeAriaLabel : String
deriving DecidableEq, Repr

/-- A child node of `sandboxAreaElement`: the paragraph carrying the id
`sandbox-empty-message`, or a `div.sandbox-block`. Both are filled through
`textContent`, so they hold no parsed markup. -/
inductive SandboxNode where
  | emptyMessage : SandboxNode
  | sandboxBlock (e : BlockElement) : SandboxNode
deriving DecidableEq, Repr

/-- A child node of `equipmentListElement`: the box appended by `displayError`
(with the error message) or the card built by `createEquipmentCard`, each with
the number of outermost elements of id `sandbox-empty-message` it currently
contains. -/
inductive LibraryNode where
  | errorBox (message : String) (ids : Nat) : LibraryNode
  | equipmentCard (block : Item) (ids : Nat) : LibraryNode
deriving DecidableEq, Repr

/-- The mutable state of the page that the script reads and writes. -/
structure Page where
  /-- children of `equipmentListElement`, in document order -/
  equipmentList : List LibraryNode
  /-- children of `sandboxAreaElement`, in document order -/
  sandboxArea : List SandboxNode
  /-- whether `sandboxAreaElement.classList` contains `drag-over` -/
  dragOver : Bool
  /-- the `equipmentById` map, entries in insertion order -/
  equipmentById : List (String × Item)
  /-- the `sandboxDragDepth` counter -/
  sandboxDragDepth : Int
deriving DecidableEq, Repr

/-! ## The `Map` operations used by the script -/

/-- `Map.prototype.get`: the value stored under the key, if any. -/
def mapGet : List (String × Item) → String → Option Item
  | [], _ => none
  | (k, v) :: rest, key => if k = key then some v else mapGet rest key

/-- `Map.prototype.set`: replaces the value of an existing key in place,
otherwise appends a new entry. -/
def mapSet : List (String × Item) → String → Item → List (String × Item)
  | [], key, value => [(key, value)]
  | (k, v) :: rest, key, value =>
    if k = key then (k, value) :: rest else (k, v) :: mapSet rest key value

/-- `Map.prototype.size`. -/
def mapSize (m : List (String × Item)) : Nat := m.length

/-! ## Empty-state message -/

/-- Number of outermost elements of id `sandbox-empty-message` inside a library
node. -/
def LibraryNode.emptyMessageIds : LibraryNode → Nat
  | LibraryNode.errorBox _ ids => ids
  | LibraryNode.equipmentCard _ ids => ids

/-- The library node after `remove()` of the first element of id
`sandbox-empty-message` inside it. -/
def LibraryNode.removeEmptyMessageId : LibraryNode → LibraryNode
  | LibraryNode.errorBox message ids => LibraryNode.errorBox message (ids - 1)
  | LibraryNode.equipmentCard block ids => LibraryNode.equipmentCard block (ids - 1)

/-- Number of outermost elements of id `sandbox-empty-message` in the library
region. -/
def libraryEmptyMessageIds (p : Page) : Nat :=
  (p.equipmentList.map LibraryNode.emptyMessageIds).sum

/-- Whether the empty-state message is among the children of the sandbox area:
the placeholder is shown. -/
def sandboxHasEmptyMessage (p : Page) : Bool :=
  p.sandboxArea.any (fun node => node = SandboxNode.emptyMessage)

/-- Number of empty-state messages among the children of the sandbox area. -/
def emptyMessageCount (p : Page) : Nat :=
  p.sandboxArea.count SandboxNode.emptyMessage

/-- Where `document.getElementById` found an element. -/
inductive ElementRef where
  | inLibrary : ElementRef
  | inSandbox : ElementRef
deriving DecidableEq, Repr

/-- `document.getElementById(SANDBOX_EMPTY_MESSAGE_ID)`: the first element of
the document, in document order, that carries the id; `none` is `null`. -/
def getEmptyMessageElement (host : Host) (p : Page) : Option ElementRef :=
  if host.libraryFirst then
    if 0 < libraryEmptyMessageIds p then some ElementRef.inLibrary
    else if sandboxHasEmptyMessage p then some ElementRef.inSandbox
    else none
  else
    if sandboxHasEmptyMessage p then some ElementRef.inSandbox
    else if 0 < libraryEmptyMessageIds p then some ElementRef.inLibrary
    else none

/-- The library after `remove()` of its first element of id
`sandbox-empty-message`. -/
def removeFirstLibraryId : List LibraryNode → List LibraryNode
  | [] => []
  | node :: rest =>
    if 0 < node.emptyMessageIds then node.removeEmptyMessageId :: rest
    else node :: removeFirstLibraryId rest

/-- `showEmptySandboxMessage`. -/
def showEmptySandboxMessage (host : Host) (p : Page) : Page :=
  match getEmptyMessageElement host p with
  | some _ => p
  | none => { p with sandboxArea := p.sandboxArea ++ [SandboxNode.emptyMessage] }

/-- `hideEmptySandboxMessage`: the element `getElementById` returned is
removed from its parent. -/
def hideEmptySandboxMessage (host : Host) (p : Page) : Page :=
  match getEmptyMessageElement host p with
  | some ElementRef.inLibrary =>
    { p with equipmentList := removeFirstLibraryId p.equipmentList }
  | some ElementRef.inSandbox =>
    { p with sandboxArea := p.sandboxArea.erase SandboxNode.emptyMessage }
  | none => p

/-! ## Sandbox blocks -/

/-- The element `addBlockToSandbox` builds for a block. -/
def blockElementOf (block : Item) : BlockElement :=
  { dataBlockId := block.id
    title := block.name
    description := block.description
    removeAriaLabel := "Retirer " ++ block.name ++ " du bac à sable" }

/-- The `div.sandbox-block` elements among a list of child nodes, in order. -/
def blocksOf (l : List SandboxNode) : List BlockElement :=
  l.filterMap fun node =>
    match node with
    | SandboxNode.emptyMessage => none
    | SandboxNode.sandboxBlock e => some e

/-- The `div.sandbox-block` children of the sandbox area, in document order:
the sandbox entries. -/
def sandboxBlocks (p : Page) : List BlockElement := blocksOf p.sandboxArea

/-- `sandboxAreaElement.querySelector(".sandbox-block")` is not null. -/
def hasSandboxBlock (p : Page) : Bool :=
  p.sandboxArea.any fun node =>
    match node with
    | SandboxNode.emptyMessage => false
    | SandboxNode.sandboxBlock _ => true

/-- `addBlockToSandbox`. -/
def addBlockToSandbox (host : Host) (block : Item) (p : Page) : Page :=
  let p1 := hideEmptySandboxMessage host p
  { p1 with sandboxArea := p1.sandboxArea ++ [SandboxNode.sandboxBlock (blockElementOf block)] }

/-- `blockElement.remove()` for the block element that is the `n`-th
`div.sandbox-block` child of the sandbox area (counting from 0). An element that
is not attached (no such child) is left alone, as `remove()` does. -/
def removeNthBlock : Nat → List SandboxNode → List SandboxNode
  | _, [] => []
  | n, SandboxNode.emptyMessage :: rest => SandboxNode.emptyMessage :: removeNthBlock n rest
  | 0, SandboxNode.sandboxBlock _ :: rest => rest
  | n + 1, SandboxNode.sandboxBlock e :: rest => SandboxNode.sandboxBlock e :: removeNthBlock n rest

/-- The click handler of the remove button of the `n`-th sandbox block. -/
def removeButtonClick (host : Host) (n : Nat) (p : Page) : Page :=
  let p1 := { p with sandboxArea := removeNthBlock n p.sandboxArea }
  if hasSandboxBlock p1 then p1 else showEmptySandboxMessage host p1

/-- The click handler of the reset button. -/
def resetClick (host : Host) (p : Page) : Page :=
  showEmptySandboxMessage host { p with sandboxArea := [] }

/-! ## Drag and drop on the sandbox area -/

/-- The `dragenter` handler. -/
def dragenter (p : Page) : Page :=
  { p with sandboxDragDepth := p.sandboxDragDepth + 1, dragOver := true }

/-- The `dragover` handler: it only touches the event object. -/
def dragover (p : Page) : Page := p

/-- The `dragleave` handler. -/
def dragleave (p : Page) : Page :=
  let p1 := { p with sandboxDragDepth := max 0 (p.sandboxDragDepth - 1) }
  if p1.sandboxDragDepth = 0 then { p1 with dragOver := false } else p1

/-- The `drop` handler; `blockId` is `event.dataTransfer.getData("text/plain")`,
which is the empty string when the drag carries no such data. -/
def dropHandler (host : Host) (blockId : String) (p : Page) : Page :=
  let p1 := { p with sandboxDragDepth := 0, dragOver := false }
  if blockId = "" then p1
  else
    match mapGet p1.equipmentById blockId with
    | none => p1
    | some block => addBlockToSandbox host block p1

/-! ## Loading the catalog -/

/-- The body of a response, as far as `response.json()` and the read of
`data.equipment` distinguish it: text that is not JSON (with the message of the
error `json()` rejects with), the JSON value `null` (with the message of the
`TypeError` the property read raises), or a JSON object whose `equipment` field
is absent or holds a list of items. -/
inductive ResponseBody where
  | notJson (message : String) : ResponseBody
  | jsonNull (message : String) : ResponseBody
  | object (equipment : Option (List Item)) : ResponseBody
deriving DecidableEq, Repr

/-- What `await fetch(API_URL)` gives: a rejection (transport error) or a
response with its `ok` flag, status and body. -/
inductive FetchOutcome where
  | rejected (message : String) : FetchOutcome
  | response (ok : Bool) (status : Nat) (body : ResponseBody) : FetchOutcome
deriving DecidableEq, Repr

/-- An exception that escapes a function of the script. -/
inductive JsError where
  | typeError : JsError
deriving DecidableEq, Repr

/-- The string `displayError` assigns to `errorBox.innerHTML`. -/
def errorMarkup (message : String) : String :=
  "\n    <h3>Erreur de chargement</h3>\n    <p>" ++ message ++
    "</p>\n    <p>Vérifie que l\x27API FastAPI est bien démarrée avec uvicorn.</p>\n  "

/-- The string `createEquipmentCard` assigns to `card.innerHTML`. -/
def cardMarkup (block : Item) : String :=
  "\n    <span class=\"equipment-category\">" ++ block.category ++
    "</span>\n    <h3>" ++ block.name ++ "</h3>\n    <p>" ++ block.description ++ "</p>\n  "

/-- `displayError`, for an error with the given message. -/
def displayError (host : Host) (message : String) (p : Page) : Page :=
  { p with
    equipmentList := p.equipmentList ++
      [LibraryNode.errorBox message (host.emptyMessageIds (errorMarkup message))] }

/-- `fetchEquipment`: the page it leaves and the value it resolves to, `none`
being the JavaScript value `undefined`. -/
def fetchEquipment (host : Host) (r : FetchOutcome) (p : Page) : Page × Option (List Item) :=
  match r with
  | FetchOutcome.rejected message => (displayError host message p, some [])
  | FetchOutcome.response ok status body =>
    if ok = false then
      (displayError host ("La requête a échoué avec le statut " ++ toString status) p, some [])
    else
      match body with
      | ResponseBody.notJson message => (displayError host message p, some [])
      | ResponseBody.jsonNull message => (displayError host message p, some [])
      | ResponseBody.object equipment => (p, equipment)

/-- `createEquipmentCard`. -/
def createEquipmentCard (host : Host) (block : Item) : LibraryNode :=
  LibraryNode.equipmentCard block (host.emptyMessageIds (cardMarkup block))

/-- One iteration of the `forEach` of `init`. -/
def registerBlock (host : Host) (p : Page) (block : Item) : Page :=
  { p with
    equipmentById := mapSet p.equipmentById block.id block
    equipmentList := p.equipmentList ++ [createEquipmentCard host block] }

/-- `init`: `Except.error` is an exception that escapes the function (the
promise it returns is rejected); reading `length` of `undefined` raises a
`TypeError`. -/
def init (host : Host) (r : FetchOutcome) (p : Page) : Except JsError Page :=
  match fetchEquipment host r p with
  | (_, none) => Except.error JsError.typeError
  | (p1, some equipmentBlocks) =>
    if equipmentBlocks.length = 0 then Except.ok p1
    else Except.ok (equipmentBlocks.foldl (registerBlock host) p1)

/-! ## The page as a state machine -/

/-- Modelled from the spec: the markup of the page is not part of the sources;
the page starts with an empty library, an empty sandbox area without the
`drag-over` class, and the script's initial values of `equipmentById` and
`sandboxDragDepth`. -/
def pageLoad : Page :=
  { equipmentList := []
    sandboxArea := []
    dragOver := false
    equipmentById := []
    sandboxDragDepth := 0 }

/-- `setupInteractions`: shows the empty message; the handlers it registers are
the cases of `step`. -/
def setupInteractions (host : Host) (p : Page) : Page := showEmptySandboxMessage host p

/-- The events the script reacts to. -/
inductive Event where
  /-- click, Enter or Space on a card: `addBlockToSandbox(block)` -/
  | activateCard (block : Item) : Event
  /-- click on the remove button of the `n`-th sandbox block -/
  | removeClick (n : Nat) : Event
  | resetClick : Event
  | dragenter : Event
  | dragover : Event
  | dragleave : Event
  | drop (blockId : String) : Event
  /-- the request started by `init` settles -/
  | fetchSettled (r : FetchOutcome) : Event
deriving DecidableEq, Repr

/-- The invariant of the drag state: the depth is non-negative and the
`drag-over` class is set exactly when it is positive. -/
def DragInv (p : Page) : Prop :=
  0 ≤ p.sandboxDragDepth ∧ (p.dragOver = true ↔ 0 < p.sandboxDragDepth)

/-- The invariant of the sandbox on a page without stray id: no element of id
`sandbox-empty-message` in the library, and in the sandbox area exactly one
empty message when there is no block, none otherwise. -/
def SandboxInv (p : Page) : Prop :=
  libraryEmptyMessageIds p = 0 ∧
    emptyMessageCount p = if sandboxBlocks p = [] then 1 else 0

/-- The page after one event. When `init` throws, the page stays as
`fetchEquipment` left it. -/
def step (host : Host) (p : Page) : Event → Page
  | Event.activateCard block => addBlockToSandbox host block p
  | Event.removeClick n => removeButtonClick host n p
  | Event.resetClick => resetClick host p
  | Event.dragenter => dragenter p
  | Event.dragover => dragover p
  | Event.dragleave => dragleave p
  | Event.drop blockId => dropHandler host blockId p
  | Event.fetchSettled r =>
    match init host r p with
    | Except.ok p1 => p1
    | Except.error _ => (fetchEquipment host r p).1

/-- The page after a sequence of events, in order. -/
def run (host : Host) (p : Page) (events : List Event) : Page := events.foldl (step host) p

/-- The page once the script has been loaded: `setupInteractions()` has run. -/
def start (host : Host) : Page := setupInteractions host pageLoad

/-- Successive `addBlockToSandbox` calls, one per block, in list order. -/
def addBlocks (host : Host) (p : Page) (blocks : List Item) : Page :=
  blocks.foldl (fun q block => addBlockToSandbox host block q) p

/-- A successful response whose body is an object with the given list under
`equipment`. -/
def okResponse (blocks : List Item) : FetchOutcome :=
  FetchOutcome.response true 200 (ResponseBody.object (some blocks))

/-! ## Example data -/

/-- The item of the first example scenario. -/
def pump : Item :=
  { id := "p1", name := "Pump", description := "Moves fluid", category := "Mechanical" }

/-- A record whose name is the markup of one element of id
`sandbox-empty-message`. -/
def decoy : Item :=
  { id := "x", name := "<i id=\"sandbox-empty-message\"></i>", description := "d",
    category := "c" }

/-- A record whose name is the markup of two sibling elements of id
`sandbox-empty-message`. -/
def twinDecoy : Item :=
  { id := "y"
    name := "<i id=\"sandbox-empty-message\"></i><i id=\"sandbox-empty-message\"></i>"
    description := "d", category := "c" }

/-- A host whose parser finds no element of id `sandbox-empty-message` in any
markup, with the library before the sandbox area. -/
def plainHost : Host :=
  { emptyMessageIds := fun _ => 0
    libraryFirst := true }

/-- A host whose parser finds the element of the card of `decoy`, the two
elements of the card of `twinDecoy` and no such element in any other markup,
with the library before the sandbox area. -/
def decoyHost : Host :=
  { emptyMessageIds := fun markup =>
      if markup = cardMarkup decoy then 1
      else if markup = cardMarkup twinDecoy then 2
      else 0
    libraryFirst := true }

set_option maxRecDepth 20000

/-! ## Lemmas on the sandbox children -/

theorem sandboxBlocks_eq (p : Page) : sandboxBlocks p = blocksOf p.sandboxArea := rfl

@[simp]
theorem blocksOf_nil : blocksOf [] = [] := rfl

@[simp]
theorem blocksOf_cons_emptyMessage (l : List SandboxNode) :
    blocksOf (SandboxNode.emptyMessage :: l) = blocksOf l := by
  simp [blocksOf]

@[simp]
theorem blocksOf_cons_block (e : BlockElement) (l : List SandboxNode) :
    blocksOf (SandboxNode.sandboxBlock e :: l) = e :: blocksOf l := by
  simp [blocksOf]

@[simp]
theorem blocksOf_append (l k : List SandboxNode) :
    blocksOf (l ++ k) = blocksOf l ++ blocksOf k := by
  simp [blocksOf]

theorem blocksOf_erase_emptyMessage (l : List SandboxNode) :
    blocksOf (l.erase SandboxNode.emptyMessage) = blocksOf l := by
  induction l with
  | nil => rfl
  | cons a t ih =>
    cases a with
    | emptyMessage => simp
    | sandboxBlock e => simp [List.erase_cons, ih]

theorem blocksOf_removeNthBlock (n : Nat) (l : List SandboxNode) :
    blocksOf (removeNthBlock n l) = (blocksOf l).eraseIdx n := by
  induction l generalizing n with
  | nil => simp [removeNthBlock]
  | cons a t ih =>
    cases a with
    | emptyMessage => simp [removeNthBlock, ih]
    | sandboxBlock e =>
      cases n with
      | zero => simp [removeNthBlock]
      | succ m => simp [removeNthBlock, ih]

theorem hasSandboxBlock_iff (p : Page) :
    hasSandboxBlock p = true ↔ sandboxBlocks p ≠ [] := by
  unfold hasSandboxBlock sandboxBlocks
  induction p.sandboxArea with
  | nil => simp
  | cons a t ih =>
    cases a with
    | emptyMessage => simpa using ih
    | sandboxBlock e => simp

theorem sandboxHasEmptyMessage_iff_count (p : Page) :
    sandboxHasEmptyMessage p = true ↔ 0 < emptyMessageCount p := by
  simp [sandboxHasEmptyMessage, emptyMessageCount, List.count_pos_iff]

/-! ## The lookup of the empty message -/

theorem getEmptyMessageElement_eq_none_iff (host : Host) (p : Page) :
    getEmptyMessageElement host p = none ↔
      libraryEmptyMessageIds p = 0 ∧ sandboxHasEmptyMessage p = false := by
  unfold getEmptyMessageElement
  cases host.libraryFirst <;>
    by_cases h1 : 0 < libraryEmptyMessageIds p <;>
    cases h2 : sandboxHasEmptyMessage p <;> simp [h1] <;> omega

theorem getEmptyMessageElement_of_library (host : Host) (p : Page)
    (hlib : 0 < libraryEmptyMessageIds p) (hsand : sandboxHasEmptyMessage p = false) :
    getEmptyMessageElement host p = some ElementRef.inLibrary := by
  unfold getEmptyMessageElement
  cases host.libraryFirst <;> simp [hlib, hsand]

theorem getEmptyMessageElement_of_sandbox (host : Host) (p : Page)
    (hlib : libraryEmptyMessageIds p = 0) (hsand : sandboxHasEmptyMessage p = true) :
    getEmptyMessageElement host p = some ElementRef.inSandbox := by
  unfold getEmptyMessageElement
  cases host.libraryFirst <;> simp [hlib, hsand]

theorem show_of_found (host : Host) (p : Page) (h : getEmptyMessageElement host p ≠ none) :
    showEmptySandboxMessage host p = p := by
  unfold showEmptySandboxMessage
  cases hg : getEmptyMessageElement host p with
  | none => exact absurd hg h
  | some r => rfl

theorem show_of_not_found (host : Host) (p : Page) (h : getEmptyMessageElement host p = none) :
    showEmptySandboxMessage host p =
      { p with sandboxArea := p.sandboxArea ++ [SandboxNode.emptyMessage] } := by
  unfold showEmptySandboxMessage
  rw [h]

theorem sum_removeFirstLibraryId (l : List LibraryNode)
    (h : 0 < (l.map LibraryNode.emptyMessageIds).sum) :
    ((removeFirstLibraryId l).map LibraryNode.emptyMessageIds).sum + 1 =
      (l.map LibraryNode.emptyMessageIds).sum := by
  induction l with
  | nil => simp at h
  | cons a t ih =>
    by_cases ha : 0 < a.emptyMessageIds
    · simp only [removeFirstLibraryId, ha, if_true, List.map_cons, List.sum_cons]
      cases a <;> simp only [LibraryNode.removeEmptyMessageId, LibraryNode.emptyMessageIds] at ha ⊢ <;>
        omega
    · simp only [removeFirstLibraryId, ha, if_false, List.map_cons, List.sum_cons]
      simp only [List.map_cons, List.sum_cons] at h
      have := ih (by omega)
      omega

/-! ## Effect of each operation on the entries, and what it leaves alone -/

theorem show_frame (host : Host) (p : Page) :
    (showEmptySandboxMessage host p).dragOver = p.dragOver ∧
    (showEmptySandboxMessage host p).sandboxDragDepth = p.sandboxDragDepth ∧
    (showEmptySandboxMessage host p).equipmentById = p.equipmentById ∧
    (showEmptySandboxMessage host p).equipmentList = p.equipmentList ∧
    sandboxBlocks (showEmptySandboxMessage host p) = sandboxBlocks p := by
  unfold showEmptySandboxMessage
  split <;> simp [sandboxBlocks_eq]

theorem hide_frame (host : Host) (p : Page) :
    (hideEmptySandboxMessage host p).dragOver = p.dragOver ∧
    (hideEmptySandboxMessage host p).sandboxDragDepth = p.sandboxDragDepth ∧
    (hideEmptySandboxMessage host p).equipmentById = p.equipmentById ∧
    sandboxBlocks (hideEmptySandboxMessage host p) = sandboxBlocks p := by
  unfold hideEmptySandboxMessage
  split <;> simp [sandboxBlocks_eq, blocksOf_erase_emptyMessage]

theorem add_frame (host : Host) (block : Item) (p : Page) :
    (addBlockToSandbox host block p).dragOver = p.dragOver ∧
    (addBlockToSandbox host block p).sandboxDragDepth = p.sandboxDragDepth ∧
    (addBlockToSandbox host block p).equipmentById = p.equipmentById := by
  obtain ⟨h1, h2, h3, -⟩ := hide_frame host p
  exact ⟨h1, h2, h3⟩

theorem sandboxBlocks_add (host : Host) (block : Item) (p : Page) :
    sandboxBlocks (addBlockToSandbox host block p) =
      sandboxBlocks p ++ [blockElementOf block] := by
  have h := (hide_frame host p).2.2.2
  simp only [sandboxBlocks_eq] at h
  simp [addBlockToSandbox, sandboxBlocks_eq, h]

theorem remove_frame (host : Host) (n : Nat) (p : Page) :
    (removeButtonClick host n p).dragOver = p.dragOver ∧
    (removeButtonClick host n p).sandboxDragDepth = p.sandboxDragDepth ∧
    (removeButtonClick host n p).equipmentById = p.equipmentById ∧
    (removeButtonClick host n p).equipmentList = p.equipmentList ∧
    sandboxBlocks (removeButtonClick host n p) = (sandboxBlocks p).eraseIdx n := by
  unfold removeButtonClick
  simp only
  split
  · simp [sandboxBlocks_eq, blocksOf_removeNthBlock]
  · obtain ⟨h1, h2, h3, h4, h5⟩ :=
      show_frame host { p with sandboxArea := removeNthBlock n p.sandboxArea }
    refine ⟨h1, h2, h3, h4, ?_⟩
    rw [h5]
    simp [sandboxBlocks_eq, blocksOf_removeNthBlock]

theorem reset_frame (host : Host) (p : Page) :
    (resetClick host p).dragOver = p.dragOver ∧
    (resetClick host p).sandboxDragDepth = p.sandboxDragDepth ∧
    (resetClick host p).equipmentById = p.equipmentById ∧
    (resetClick host p).equipmentList = p.equipmentList ∧
    sandboxBlocks (resetClick host p) = [] := by
  obtain ⟨h1, h2, h3, h4, h5⟩ := show_frame host { p with sandboxArea := [] }
  exact ⟨h1, h2, h3, h4, h5⟩

theorem sandboxBlocks_addBlocks (host : Host) (p : Page) (blocks : List Item) :
    sandboxBlocks (addBlocks host p blocks) = sandboxBlocks p ++ blocks.map blockElementOf := by
  induction blocks generalizing p with
  | nil => simp [addBlocks]
  | cons b t ih =>
    have h := ih (addBlockToSandbox host b p)
    simp only [addBlocks, List.foldl_cons] at h ⊢
    rw [h, sandboxBlocks_add]
    simp

/-! ## Loading leaves the sandbox and the drag state alone -/

theorem foldl_registerBlock_frame (host : Host) (blocks : List Item) (p : Page) :
    (blocks.foldl (registerBlock host) p).sandboxArea = p.sandboxArea ∧
    (blocks.foldl (registerBlock host) p).dragOver = p.dragOver ∧
    (blocks.foldl (registerBlock host) p).sandboxDragDepth = p.sandboxDragDepth := by
  induction blocks generalizing p with
  | nil => simp
  | cons b t ih =>
    simp only [List.foldl_cons]
    obtain ⟨h1, h2, h3⟩ := ih (registerBlock host p b)
    exact ⟨h1, h2, h3⟩

theorem fetchEquipment_frame (host : Host) (r : FetchOutcome) (p : Page) :
    (fetchEquipment host r p).1.sandboxArea = p.sandboxArea ∧
    (fetchEquipment host r p).1.dragOver = p.dragOver ∧
    (fetchEquipment host r p).1.sandboxDragDepth = p.sandboxDragDepth ∧
    (fetchEquipment host r p).1.equipmentById = p.equipmentById := by
  unfold fetchEquipment
  cases r with
  | rejected message => simp [displayError]
  | response ok status body =>
    cases ok <;> cases body <;> simp [displayError]

theorem step_fetchSettled_frame (host : Host) (r : FetchOutcome) (p : Page) :
    (step host p (Event.fetchSettled r)).sandboxArea = p.sandboxArea ∧
    (step host p (Event.fetchSettled r)).dragOver = p.dragOver ∧
    (step host p (Event.fetchSettled r)).sandboxDragDepth = p.sandboxDragDepth := by
  obtain ⟨h1, h2, h3, _⟩ := fetchEquipment_frame host r p
  simp only [step, init]
  rcases hf : fetchEquipment host r p with ⟨p1, _ | blocks⟩
  · rw [hf] at h1 h2 h3
    exact ⟨h1, h2, h3⟩
  · rw [hf] at h1 h2 h3
    simp only at h1 h2 h3 ⊢
    split
    · rename_i q hq
      split at hq
      · cases hq; exact ⟨h1, h2, h3⟩
      · cases hq
        obtain ⟨g1, g2, g3⟩ := foldl_registerBlock_frame host blocks p1
        exact ⟨g1.trans h1, g2.trans h2, g3.trans h3⟩
    · exact ⟨h1, h2, h3⟩

/-! ## The invariant of the drag state -/

theorem dragleave_depth (p : Page) :
    (dragleave p).sandboxDragDepth = max 0 (p.sandboxDragDepth - 1) := by
  unfold dragleave
  simp only
  split <;> rfl

theorem dragleave_dragOver (p : Page) :
    (dragleave p).dragOver =
      if max 0 (p.sandboxDragDepth - 1) = 0 then false else p.dragOver := by
  unfold dragleave
  simp only
  split <;> rfl

theorem drop_drag (host : Host) (blockId : String) (p : Page) :
    (dropHandler host blockId p).sandboxDragDepth = 0 ∧
    (dropHandler host blockId p).dragOver = false := by
  unfold dropHandler
  simp only
  split
  · simp
  · split
    · simp
    · rename_i block _
      obtain ⟨h1, h2, -⟩ :=
        add_frame host block { p with sandboxDragDepth := 0, dragOver := false }
      exact ⟨h2, h1⟩

theorem dragInv_step (host : Host) (p : Page) (e : Event) (hp : DragInv p) :
    DragInv (step host p e) := by
  obtain ⟨h0, h1⟩ := hp
  cases e with
  | activateCard block =>
    obtain ⟨g1, g2, -⟩ := add_frame host block p
    simp only [DragInv, step, g1, g2]
    exact ⟨h0, h1⟩
  | removeClick n =>
    obtain ⟨g1, g2, -⟩ := remove_frame host n p
    simp only [DragInv, step, g1, g2]
    exact ⟨h0, h1⟩
  | resetClick =>
    obtain ⟨g1, g2, -⟩ := reset_frame host p
    simp only [DragInv, step, g1, g2]
    exact ⟨h0, h1⟩
  | dragenter =>
    simp only [step, dragenter, DragInv]
    constructor
    · omega
    · simp
      omega
  | dragover => exact ⟨h0, h1⟩
  | dragleave =>
    simp only [step, DragInv, dragleave_depth, dragleave_dragOver]
    refine ⟨by omega, ?_⟩
    split
    · rename_i h
      simp [h]
    · rename_i h
      constructor
      · intro _
        omega
      · intro _
        apply h1.2
        omega
  | drop blockId =>
    obtain ⟨g1, g2⟩ := drop_drag host blockId p
    simp [DragInv, step, g1, g2]
  | fetchSettled r =>
    obtain ⟨_, g2, g3⟩ := step_fetchSettled_frame host r p
    simp only [DragInv, g2, g3]
    exact ⟨h0, h1⟩

theorem dragInv_run (host : Host) (p : Page) (events : List Event) (hp : DragInv p) :
    DragInv (run host p events) := by
  induction events generalizing p with
  | nil => exact hp
  | cons e t ih => exact ih (step host p e) (dragInv_step host p e hp)

theorem start_eq (host : Host) :
    start host = { pageLoad with sandboxArea := [SandboxNode.emptyMessage] } := by
  have h : getEmptyMessageElement host pageLoad = none := by
    rw [getEmptyMessageElement_eq_none_iff]
    exact ⟨rfl, rfl⟩
  rw [start, setupInteractions, show_of_not_found host pageLoad h]
  rfl

theorem dragInv_start (host : Host) : DragInv (start host) := by
  rw [start_eq]
  simp [DragInv, pageLoad]

theorem run_append (host : Host) (p : Page) (events more : List Event) :
    run host p (events ++ more) = run host (run host p events) more := by
  simp [run, List.foldl_append]

/-! ## Show, hide and reset when the id sits in the library -/

theorem show_of_library (host : Host) (p : Page) (hlib : 0 < libraryEmptyMessageIds p) :
    showEmptySandboxMessage host p = p := by
  apply show_of_found
  intro h
  have := ((getEmptyMessageElement_eq_none_iff host p).1 h).1
  omega

theorem getEmptyMessageElement_show (host : Host) (p : Page) :
    getEmptyMessageElement host (showEmptySandboxMessage host p) ≠ none := by
  cases hg : getEmptyMessageElement host p with
  | some r =>
    rw [show_of_found host p (by rw [hg]; simp), hg]
    simp
  | none =>
    rw [show_of_not_found host p hg]
    intro h
    have := ((getEmptyMessageElement_eq_none_iff host _).1 h).2
    simp [sandboxHasEmptyMessage] at this

theorem show_show (host : Host) (p : Page) :
    showEmptySandboxMessage host (showEmptySandboxMessage host p) =
      showEmptySandboxMessage host p :=
  show_of_found host _ (getEmptyMessageElement_show host p)

theorem hide_of_library (host : Host) (p : Page)
    (hlib : 0 < libraryEmptyMessageIds p) (hsand : sandboxHasEmptyMessage p = false) :
    hideEmptySandboxMessage host p =
      { p with equipmentList := removeFirstLibraryId p.equipmentList } := by
  unfold hideEmptySandboxMessage
  rw [getEmptyMessageElement_of_library host p hlib hsand]

theorem libraryIds_hide_of_library (host : Host) (p : Page)
    (hlib : 0 < libraryEmptyMessageIds p) (hsand : sandboxHasEmptyMessage p = false) :
    libraryEmptyMessageIds (hideEmptySandboxMessage host p) + 1 = libraryEmptyMessageIds p ∧
    sandboxHasEmptyMessage (hideEmptySandboxMessage host p) = false := by
  rw [hide_of_library host p hlib hsand]
  exact ⟨sum_removeFirstLibraryId p.equipmentList hlib, hsand⟩

theorem resetClick_of_library (host : Host) (p : Page) (hlib : 0 < libraryEmptyMessageIds p) :
    resetClick host p = { p with sandboxArea := [] } :=
  show_of_library host { p with sandboxArea := [] } hlib

theorem resetClick_of_no_library (host : Host) (p : Page) (hlib : libraryEmptyMessageIds p = 0) :
    resetClick host p = { p with sandboxArea := [SandboxNode.emptyMessage] } := by
  have h : getEmptyMessageElement host { p with sandboxArea := [] } = none := by
    rw [getEmptyMessageElement_eq_none_iff]
    exact ⟨hlib, rfl⟩
  rw [resetClick, show_of_not_found host _ h]
  rfl

theorem resetClick_idempotent (host : Host) (p : Page) :
    resetClick host (resetClick host p) = resetClick host p := by
  by_cases hlib : 0 < libraryEmptyMessageIds p
  · rw [resetClick_of_library host p hlib]
    exact resetClick_of_library host _ hlib
  · have h0 : libraryEmptyMessageIds p = 0 := by omega
    rw [resetClick_of_no_library host p h0]
    exact resetClick_of_no_library host _ h0

theorem run_load_one (host : Host) (block : Item) :
    run host (start host) [Event.fetchSettled (okResponse [block])] =
      registerBlock host (start host) block := by
  simp [run, step, init, okResponse, fetchEquipment]

/-! ## The placeholder and the entries -/

/-- C1 (the code at the failing input): on any host whose HTML parser finds an
element of id `sandbox-empty-message` in the markup of the card of a record,
loading that record and clicking the reset button leaves the sandbox area
without any child: there is no entry and the empty message is not there. -/
theorem reset_after_decoy_card (host : Host) (block : Item)
    (hid : 0 < host.emptyMessageIds (cardMarkup block)) :
    (run host (start host)
      [Event.fetchSettled (okResponse [block]), Event.resetClick]).sandboxArea = [] ∧
    sandboxBlocks (run host (start host)
      [Event.fetchSettled (okResponse [block]), Event.resetClick]) = [] ∧
    sandboxHasEmptyMessage (run host (start host)
      [Event.fetchSettled (okResponse [block]), Event.resetClick]) = false := by
  have hrun : run host (start host)
      [Event.fetchSettled (okResponse [block]), Event.resetClick] =
      resetClick host (registerBlock host (start host) block) := by
    have h := run_append host (start host) [Event.fetchSettled (okResponse [block])]
      [Event.resetClick]
    simp only [List.singleton_append] at h
    rw [h, run_load_one]
    rfl
  have hlib : 0 < libraryEmptyMessageIds (registerBlock host (start host) block) := by
    rw [start_eq]
    simpa [libraryEmptyMessageIds, registerBlock, createEquipmentCard, pageLoad,
      LibraryNode.emptyMessageIds] using hid
  rw [hrun, resetClick_of_library host _ hlib]
  exact ⟨rfl, rfl, rfl⟩

/-- Witness of C1: the record named `<i id="sandbox-empty-message"></i>`. -/
theorem reset_after_decoy_card_witness :
    0 < decoyHost.emptyMessageIds (cardMarkup decoy) ∧
    (run decoyHost (start decoyHost)
      [Event.fetchSettled (okResponse [decoy]), Event.resetClick]).sandboxArea = [] :=
  ⟨by decide, (reset_after_decoy_card decoyHost decoy (by decide)).1⟩

/-- C2: calling `addBlockToSandbox` on `b1`, ..., `bN` in turn from the state
left by `setupInteractions` (or from the sandbox area without any child) yields
exactly `N` entries, the `i`-th one carrying the id of `bi` as `data-block-id`,
its name as title, its description, and a remove button labelled with its name;
from any page, one call appends that element after the entries already there,
which stay as they are. -/
theorem addBlockToSandbox_never_lossy (host : Host) (blocks : List Item) :
    sandboxBlocks (addBlocks host (start host) blocks) =
      blocks.map (fun b =>
        ({ dataBlockId := b.id, title := b.name, description := b.description,
           removeAriaLabel := "Retirer " ++ b.name ++ " du bac à sable" } : BlockElement)) ∧
    sandboxBlocks (addBlocks host pageLoad blocks) =
      blocks.map (fun b =>
        ({ dataBlockId := b.id, title := b.name, description := b.description,
           removeAriaLabel := "Retirer " ++ b.name ++ " du bac à sable" } : BlockElement)) ∧
    (sandboxBlocks (addBlocks host (start host) blocks)).length = blocks.length ∧
    (∀ i : Nat, (sandboxBlocks (addBlocks host (start host) blocks))[i]? =
      blocks[i]?.map (fun b =>
        ({ dataBlockId := b.id, title := b.name, description := b.description,
           removeAriaLabel := "Retirer " ++ b.name ++ " du bac à sable" } : BlockElement))) ∧
    (∀ (p : Page) (b : Item),
      sandboxBlocks (addBlockToSandbox host b p) = sandboxBlocks p ++
        [({ dataBlockId := b.id, title := b.name, description := b.description,
            removeAriaLabel := "Retirer " ++ b.name ++ " du bac à sable" } : BlockElement)]) := by
  have h1 : sandboxBlocks (addBlocks host (start host) blocks) =
      blocks.map blockElementOf := by
    rw [sandboxBlocks_addBlocks, start_eq]
    rfl
  have h2 : sandboxBlocks (addBlocks host pageLoad blocks) = blocks.map blockElementOf := by
    rw [sandboxBlocks_addBlocks]
    rfl
  refine ⟨h1, h2, ?_, ?_, fun p b => sandboxBlocks_add host b p⟩
  · rw [h1, List.length_map]
  · intro i
    rw [h1, List.getElem?_map]
    rfl

/-- C3 (the code at the failing input): when an element of id
`sandbox-empty-message` sits in the library and the sandbox area holds one
block and nothing else, the click on the remove button of that block leaves the
sandbox area without any child: the sequence of entries is empty and the empty
message is not shown. -/
theorem removeButtonClick_last_without_message (host : Host) (p : Page) (e : BlockElement)
    (hlib : 0 < libraryEmptyMessageIds p)
    (hs : p.sandboxArea = [SandboxNode.sandboxBlock e]) :
    removeButtonClick host 0 p = { p with sandboxArea := [] } ∧
    sandboxBlocks (removeButtonClick host 0 p) = [] ∧
    sandboxHasEmptyMessage (removeButtonClick host 0 p) = false := by
  have h : removeButtonClick host 0 p = { p with sandboxArea := [] } := by
    unfold removeButtonClick
    simp only [hs, removeNthBlock]
    rw [if_neg (by simp [hasSandboxBlock])]
    exact show_of_library host { p with sandboxArea := [] } hlib
  rw [h]
  exact ⟨rfl, rfl, rfl⟩

/-- Witness of C3: the record whose name holds two elements of the id is
loaded, the reset button is clicked, the card is clicked, and the remove button
of the only entry is clicked. -/
theorem removeButtonClick_last_without_message_witness :
    (0 < libraryEmptyMessageIds (run decoyHost (start decoyHost)
        [Event.fetchSettled (okResponse [twinDecoy]), Event.resetClick,
          Event.activateCard twinDecoy]) ∧
      (run decoyHost (start decoyHost)
        [Event.fetchSettled (okResponse [twinDecoy]), Event.resetClick,
          Event.activateCard twinDecoy]).sandboxArea =
        [SandboxNode.sandboxBlock (blockElementOf twinDecoy)]) ∧
    sandboxBlocks (removeButtonClick decoyHost 0 (run decoyHost (start decoyHost)
        [Event.fetchSettled (okResponse [twinDecoy]), Event.resetClick,
          Event.activateCard twinDecoy])) = [] ∧
    sandboxHasEmptyMessage (removeButtonClick decoyHost 0 (run decoyHost (start decoyHost)
        [Event.fetchSettled (okResponse [twinDecoy]), Event.resetClick,
          Event.activateCard twinDecoy])) = false :=
  ⟨⟨by decide, by decide⟩,
    (removeButtonClick_last_without_message decoyHost _ (blockElementOf twinDecoy)
      (by decide) (by decide)).2⟩

/-- C4 (the code at the failing input): on a page whose library holds an
element of id `sandbox-empty-message`, the reset handler empties the sandbox
area and shows nothing: no entry is left and the empty message is not there.
On every page the handler leaves no entry and applying it twice is the same as
applying it once. -/
theorem resetClick_without_message (host : Host) (p : Page) :
    (0 < libraryEmptyMessageIds p →
      resetClick host p = { p with sandboxArea := [] } ∧
      sandboxHasEmptyMessage (resetClick host p) = false) ∧
    sandboxBlocks (resetClick host p) = [] ∧
    resetClick host (resetClick host p) = resetClick host p := by
  refine ⟨?_, (reset_frame host p).2.2.2.2, resetClick_idempotent host p⟩
  intro hlib
  rw [resetClick_of_library host p hlib]
  exact ⟨rfl, rfl⟩

/-- Witness of C4: the page with the card of the record named
`<i id="sandbox-empty-message"></i>` in the library. -/
theorem resetClick_without_message_witness :
    0 < libraryEmptyMessageIds (run decoyHost (start decoyHost)
      [Event.fetchSettled (okResponse [decoy])]) ∧
    sandboxHasEmptyMessage (resetClick decoyHost (run decoyHost (start decoyHost)
      [Event.fetchSettled (okResponse [decoy])])) = false :=
  ⟨by decide, ((resetClick_without_message decoyHost _).1 (by decide)).2⟩

/-! ## The drag state -/

/-- C5: in every state reached from the state left by `setupInteractions`
through any finite sequence of events (dragenter, dragover, dragleave and drop
among them), `sandboxDragDepth` is non-negative and the `drag-over` class is on
the sandbox area if and only if the depth is positive; enter, enter, leave,
leave gives the depths 1, 2, 1, 0 with the class on, on, on, off. -/
theorem dragDepth_invariant (host : Host) (events : List Event) :
    0 ≤ (run host (start host) events).sandboxDragDepth ∧
    ((run host (start host) events).dragOver = true ↔
      0 < (run host (start host) events).sandboxDragDepth) ∧
    (start host).sandboxDragDepth = 0 ∧ (start host).dragOver = false ∧
    (run host (start host) [Event.dragenter]).sandboxDragDepth = 1 ∧
    (run host (start host) [Event.dragenter]).dragOver = true ∧
    (run host (start host) [Event.dragenter, Event.dragenter]).sandboxDragDepth = 2 ∧
    (run host (start host) [Event.dragenter, Event.dragenter]).dragOver = true ∧
    (run host (start host)
      [Event.dragenter, Event.dragenter, Event.dragleave]).sandboxDragDepth = 1 ∧
    (run host (start host)
      [Event.dragenter, Event.dragenter, Event.dragleave]).dragOver = true ∧
    (run host (start host) [Event.dragenter, Event.dragenter, Event.dragleave,
      Event.dragleave]).sandboxDragDepth = 0 ∧
    (run host (start host) [Event.dragenter, Event.dragenter, Event.dragleave,
      Event.dragleave]).dragOver = false := by
  obtain ⟨h0, h1⟩ := dragInv_run host (start host) events (dragInv_start host)
  refine ⟨h0, h1, ?_, ?_, ?_, ?_, ?_, ?_, ?_, ?_, ?_, ?_⟩ <;>
    simp [start_eq, pageLoad, run, step, dragenter, dragleave]

/-- C6: after any finite sequence of events from the state left by
`setupInteractions` (sequences of dragenter and dragleave in particular), a drop
with any payload leaves `sandboxDragDepth` at 0 and the `drag-over` class off;
and when the sequence ends with a dragleave that brings the depth to 0, the
class is off as well. -/
theorem drag_ends_at_rest (host : Host) (events : List Event) (blockId : String) :
    (run host (start host) (events ++ [Event.drop blockId])).sandboxDragDepth = 0 ∧
    (run host (start host) (events ++ [Event.drop blockId])).dragOver = false ∧
    ((run host (start host) (events ++ [Event.dragleave])).sandboxDragDepth = 0 →
      (run host (start host) (events ++ [Event.dragleave])).dragOver = false) := by
  refine ⟨?_, ?_, ?_⟩
  · rw [run_append]
    exact (drop_drag host blockId _).1
  · rw [run_append]
    exact (drop_drag host blockId _).2
  · intro h
    rw [run_append] at h ⊢
    have hd : (dragleave (run host (start host) events)).sandboxDragDepth = 0 := h
    show (dragleave (run host (start host) events)).dragOver = false
    rw [dragleave_depth] at hd
    rw [dragleave_dragOver, if_pos hd]

/-- Witness of C6: enter, enter, leave, then the leave that brings the depth
back to 0. -/
theorem drag_ends_at_rest_witness :
    (run plainHost (start plainHost)
      ([Event.dragenter, Event.dragenter, Event.dragleave] ++
        [Event.dragleave])).sandboxDragDepth = 0 ∧
    (run plainHost (start plainHost)
      ([Event.dragenter, Event.dragenter, Event.dragleave] ++
        [Event.dragleave])).dragOver = false :=
  ⟨by decide,
    (drag_ends_at_rest plainHost [Event.dragenter, Event.dragenter, Event.dragleave] "").2.2
      (by decide)⟩

/-! ## Show and hide -/

/-- C10 (the code at the failing input): `showEmptySandboxMessage` is
idempotent on every page, but on a page whose library holds an element of id
`sandbox-empty-message` while the sandbox area has no empty message, any number
of consecutive show calls leaves the sandbox area without empty message, and
`hideEmptySandboxMessage` is not a no-op: it removes an element of the library;
when the library holds two such elements, hiding twice differs from hiding
once. -/
theorem show_hide_with_library_id (host : Host) (p : Page) :
    showEmptySandboxMessage host (showEmptySandboxMessage host p) =
      showEmptySandboxMessage host p ∧
    (0 < libraryEmptyMessageIds p → sandboxHasEmptyMessage p = false →
      (∀ k : Nat, emptyMessageCount ((showEmptySandboxMessage host)^[k] p) = 0) ∧
      hideEmptySandboxMessage host p ≠ p ∧
      libraryEmptyMessageIds (hideEmptySandboxMessage host p) + 1 =
        libraryEmptyMessageIds p ∧
      (2 ≤ libraryEmptyMessageIds p →
        hideEmptySandboxMessage host (hideEmptySandboxMessage host p) ≠
          hideEmptySandboxMessage host p)) := by
  refine ⟨show_show host p, ?_⟩
  intro hlib hsand
  obtain ⟨h1, h2⟩ := libraryIds_hide_of_library host p hlib hsand
  refine ⟨?_, ?_, h1, ?_⟩
  · intro k
    rw [Function.iterate_fixed (show_of_library host p hlib)]
    have := (sandboxHasEmptyMessage_iff_count p).not.1 (by simp [hsand])
    omega
  · intro h
    rw [h] at h1
    omega
  · intro h2ids h
    obtain ⟨g1, _⟩ :=
      libraryIds_hide_of_library host (hideEmptySandboxMessage host p) (by omega) h2
    rw [h] at g1
    omega

/-- Witness of C10: the record whose name holds two elements of the id is
loaded and the reset button is clicked; three show calls leave the emptied
sandbox area without empty message, and hiding twice removes both elements of
the card. -/
theorem show_hide_with_library_id_witness :
    (2 ≤ libraryEmptyMessageIds (run decoyHost (start decoyHost)
        [Event.fetchSettled (okResponse [twinDecoy]), Event.resetClick]) ∧
      sandboxHasEmptyMessage (run decoyHost (start decoyHost)
        [Event.fetchSettled (okResponse [twinDecoy]), Event.resetClick]) = false) ∧
    emptyMessageCount ((showEmptySandboxMessage decoyHost)^[3]
      (run decoyHost (start decoyHost)
        [Event.fetchSettled (okResponse [twinDecoy]), Event.resetClick])) = 0 ∧
    hideEmptySandboxMessage decoyHost (hideEmptySandboxMessage decoyHost
        (run decoyHost (start decoyHost)
          [Event.fetchSettled (okResponse [twinDecoy]), Event.resetClick])) ≠
      hideEmptySandboxMessage decoyHost (run decoyHost (start decoyHost)
        [Event.fetchSettled (okResponse [twinDecoy]), Event.resetClick]) :=
  ⟨⟨by decide, by decide⟩,
    ((show_hide_with_library_id decoyHost _).2 (by decide) (by decide)).1 3,
    ((show_hide_with_library_id decoyHost _).2 (by decide) (by decide)).2.2.2 (by decide)⟩

/-! ## The catalog -/

theorem mapSet_of_not_mem (m : List (String × Item)) (key : String) (value : Item)
    (h : key ∉ m.map Prod.fst) : mapSet m key value = m ++ [(key, value)] := by
  induction m with
  | nil => rfl
  | cons a t ih =>
    obtain ⟨k, v⟩ := a
    simp only [List.map_cons, List.mem_cons, not_or] at h
    have hk : ¬ k = key := fun e => h.1 e.symm
    simp [mapSet, hk, ih h.2]

theorem mapSet_length_of_mem (m : List (String × Item)) (key : String) (value : Item)
    (h : key ∈ m.map Prod.fst) : (mapSet m key value).length = m.length := by
  induction m with
  | nil => simp at h
  | cons a t ih =>
    obtain ⟨k, v⟩ := a
    by_cases hk : k = key
    · simp [mapSet, hk]
    · have ht : key ∈ t.map Prod.fst := by
        simp only [List.map_cons, List.mem_cons] at h
        rcases h with h | h
        · exact absurd h.symm hk
        · exact h
      simp [mapSet, hk, ih ht]

theorem mapSet_keys (m : List (String × Item)) (key : String) (value : Item) :
    (mapSet m key value).map Prod.fst =
      if key ∈ m.map Prod.fst then m.map Prod.fst else m.map Prod.fst ++ [key] := by
  induction m with
  | nil => simp [mapSet]
  | cons a t ih =>
    obtain ⟨k, v⟩ := a
    by_cases hk : k = key
    · simp [mapSet, hk]
    · have hk2 : ¬ key = k := fun e => hk e.symm
      simp only [mapSet, hk, if_false, List.map_cons, ih, List.mem_cons, hk2, false_or]
      split <;> simp

theorem mapSet_key_eq_id (m : List (String × Item)) (block : Item)
    (h : ∀ e ∈ m, e.1 = e.2.id) : ∀ e ∈ mapSet m block.id block, e.1 = e.2.id := by
  induction m with
  | nil =>
    intro e he
    simp only [mapSet, List.mem_singleton] at he
    rw [he]
  | cons a t ih =>
    obtain ⟨k, v⟩ := a
    have ht : ∀ e ∈ t, e.1 = e.2.id := fun e he => h e (List.mem_cons_of_mem _ he)
    intro e he
    by_cases hk : k = block.id
    · simp only [mapSet, hk, if_true, List.mem_cons] at he
      rcases he with he | he
      · rw [he]
      · exact ht e he
    · simp only [mapSet, hk, if_false, List.mem_cons] at he
      rcases he with he | he
      · rw [he]
        exact h (k, v) (List.mem_cons_self _ _)
      · exact ih ht e he

theorem foldl_registerBlock_key_eq_id (host : Host) (blocks : List Item) (p : Page)
    (h : ∀ e ∈ p.equipmentById, e.1 = e.2.id) :
    ∀ e ∈ (blocks.foldl (registerBlock host) p).equipmentById, e.1 = e.2.id := by
  induction blocks generalizing p with
  | nil => exact h
  | cons b t ih =>
    simp only [List.foldl_cons]
    exact ih (registerBlock host p b) (mapSet_key_eq_id p.equipmentById b h)

theorem foldl_registerBlock_distinct (host : Host) (blocks : List Item) (p : Page)
    (h : (p.equipmentById.map Prod.fst ++ blocks.map Item.id).Nodup) :
    (blocks.foldl (registerBlock host) p).equipmentById =
      p.equipmentById ++ blocks.map (fun block => (block.id, block)) := by
  induction blocks generalizing p with
  | nil => simp
  | cons b t ih =>
    have hb : b.id ∉ p.equipmentById.map Prod.fst := by
      intro hmem
      have := List.disjoint_of_nodup_append h
      exact this hmem (by simp)
    have hset : (registerBlock host p b).equipmentById = p.equipmentById ++ [(b.id, b)] :=
      mapSet_of_not_mem p.equipmentById b.id b hb
    simp only [List.foldl_cons]
    rw [ih (registerBlock host p b), hset]
    · simp
    · rw [hset]
      simpa using h

theorem foldl_registerBlock_size_le (host : Host) (blocks : List Item) (p : Page) :
    mapSize (blocks.foldl (registerBlock host) p).equipmentById ≤
      mapSize p.equipmentById + blocks.length := by
  induction blocks generalizing p with
  | nil => simp
  | cons b t ih =>
    simp only [List.foldl_cons, List.length_cons]
    have h1 := ih (registerBlock host p b)
    have h2 : mapSize (registerBlock host p b).equipmentById ≤ mapSize p.equipmentById + 1 := by
      have hk := congrArg List.length (mapSet_keys p.equipmentById b.id b)
      simp only [List.length_map] at hk
      simp only [registerBlock, mapSize, hk]
      split <;> simp
    omega

theorem foldl_registerBlock_nodup_of_size (host : Host) (blocks : List Item) (p : Page)
    (hp : (p.equipmentById.map Prod.fst).Nodup)
    (h : mapSize (blocks.foldl (registerBlock host) p).equipmentById =
      mapSize p.equipmentById + blocks.length) :
    (p.equipmentById.map Prod.fst ++ blocks.map Item.id).Nodup := by
  induction blocks generalizing p with
  | nil => simpa using hp
  | cons b t ih =>
    simp only [List.foldl_cons, List.length_cons] at h
    have h1 := foldl_registerBlock_size_le host t (registerBlock host p b)
    have hb : b.id ∉ p.equipmentById.map Prod.fst := by
      intro hmem
      have h2 : mapSize (registerBlock host p b).equipmentById = mapSize p.equipmentById :=
        mapSet_length_of_mem p.equipmentById b.id b hmem
      omega
    have hset : (registerBlock host p b).equipmentById = p.equipmentById ++ [(b.id, b)] :=
      mapSet_of_not_mem p.equipmentById b.id b hb
    have hnd : ((registerBlock host p b).equipmentById.map Prod.fst).Nodup := by
      rw [hset, List.map_append]
      exact List.Nodup.append hp (by simp) (by simpa using hb)
    have hsize : mapSize (List.foldl (registerBlock host) (registerBlock host p b) t).equipmentById =
        mapSize (registerBlock host p b).equipmentById + t.length := by
      rw [h, hset]
      simp only [mapSize, List.length_append, List.length_singleton]
      omega
    have := ih (registerBlock host p b) hnd hsize
    rw [hset] at this
    simpa using this


theorem mapGet_some_mem (m : List (String × Item)) (key : String) (value : Item)
    (h : mapGet m key = some value) : (key, value) ∈ m := by
  induction m with
  | nil => simp [mapGet] at h
  | cons a t ih =>
    obtain ⟨k, v⟩ := a
    by_cases hk : k = key
    · simp only [mapGet, hk, if_true, Option.some.injEq] at h
      rw [hk, h]
      exact List.mem_cons_self _ _
    · simp only [mapGet, hk, if_false] at h
      exact List.mem_cons_of_mem _ (ih h)

theorem mem_mapSet (m : List (String × Item)) (key : String) (value : Item)
    (e : String × Item) (he : e ∈ mapSet m key value) : e.1 = key ∨ e ∈ m := by
  induction m with
  | nil =>
    simp only [mapSet, List.mem_singleton] at he
    exact Or.inl (by rw [he])
  | cons a t ih =>
    obtain ⟨k, v⟩ := a
    by_cases hk : k = key
    · simp only [mapSet, hk, if_true, List.mem_cons] at he
      rcases he with he | he
      · exact Or.inl (by rw [he])
      · exact Or.inr (List.mem_cons_of_mem _ he)
    · simp only [mapSet, hk, if_false, List.mem_cons] at he
      rcases he with he | he
      · exact Or.inr (by rw [he]; exact List.mem_cons_self _ _)
      · rcases ih he with h | h
        · exact Or.inl h
        · exact Or.inr (List.mem_cons_of_mem _ h)

/-- Loading records whose ids are not empty keeps the catalog free of the empty
key. -/
theorem foldl_registerBlock_keys_ne_empty (host : Host) (blocks : List Item) (p : Page)
    (hids : ∀ b ∈ blocks, b.id ≠ "") (hp : ∀ e ∈ p.equipmentById, e.1 ≠ "") :
    ∀ e ∈ (blocks.foldl (registerBlock host) p).equipmentById, e.1 ≠ "" := by
  induction blocks generalizing p with
  | nil => exact hp
  | cons b t ih =>
    simp only [List.foldl_cons]
    apply ih (registerBlock host p b) (fun c hc => hids c (List.mem_cons_of_mem _ hc))
    intro e he
    rcases mem_mapSet p.equipmentById b.id b e he with h | h
    · rw [h]
      exact hids b (List.mem_cons_self _ _)
    · exact hp e h

/-- C8: when the provider answers with a success status and an `equipment`
list whose ids are pairwise distinct (ids are unique in the data model), `init`
run on an empty catalog returns normally, the size of the resulting
`equipmentById` equals the length of the list, every key equals the id of the
item stored under it, and the map holds the items of the list, in order, each
under its id. -/
theorem init_fills_catalog (host : Host) (blocks : List Item) (status : Nat) (p : Page)
    (hempty : p.equipmentById = []) (hdistinct : (blocks.map Item.id).Nodup) :
    ∃ q : Page,
      init host (FetchOutcome.response true status (ResponseBody.object (some blocks))) p
        = Except.ok q ∧
      mapSize q.equipmentById = blocks.length ∧
      (∀ e ∈ q.equipmentById, e.1 = e.2.id) ∧
      q.equipmentById = blocks.map (fun block => (block.id, block)) := by
  have hmap : (blocks.foldl (registerBlock host) p).equipmentById =
      blocks.map (fun block => (block.id, block)) := by
    rw [foldl_registerBlock_distinct host blocks p (by simpa [hempty] using hdistinct), hempty]
    simp
  refine ⟨blocks.foldl (registerBlock host) p, ?_, ?_, ?_, hmap⟩
  · cases blocks with
    | nil => simp [init, fetchEquipment]
    | cons b t => simp [init, fetchEquipment]
  · rw [hmap]
    simp [mapSize]
  · rw [hmap]
    intro e he
    simp only [List.mem_map] at he
    obtain ⟨b, _, rfl⟩ := he
    rfl

/-- Witness of C8: the list of the first example scenario followed by a second
record, loaded on the page left by `setupInteractions`. -/
theorem init_fills_catalog_witness :
    ((start plainHost).equipmentById = [] ∧ ([pump, decoy].map Item.id).Nodup) ∧
    ∃ q : Page,
      init plainHost (FetchOutcome.response true 200
        (ResponseBody.object (some [pump, decoy]))) (start plainHost) = Except.ok q ∧
      mapSize q.equipmentById = [pump, decoy].length ∧
      (∀ e ∈ q.equipmentById, e.1 = e.2.id) ∧
      q.equipmentById = [pump, decoy].map (fun block => (block.id, block)) :=
  ⟨⟨by decide, by decide⟩,
    init_fills_catalog plainHost [pump, decoy] 200 (start plainHost) (by decide) (by decide)⟩

/-! ## Drop -/

/-- C7: on every page whose catalog has no empty key (ids are non-empty in the
data model), a drop whose payload is empty or is not a key of `equipmentById`
leaves the sandbox area, the library and the map as they are, and a drop whose
payload is a key of the map appends exactly one entry after the entries already
there: the element carrying the id, the name and the description of the item
stored under that key, as `addBlockToSandbox` builds it. In both cases the drag
state is reset. -/
theorem dropHandler_lookup (host : Host) (p : Page) (blockId : String)
    (hkeys : ∀ e ∈ p.equipmentById, e.1 ≠ "") :
    ((blockId = "" ∨ mapGet p.equipmentById blockId = none) →
      dropHandler host blockId p = { p with sandboxDragDepth := 0, dragOver := false }) ∧
    (∀ block : Item, mapGet p.equipmentById blockId = some block →
      sandboxBlocks (dropHandler host blockId p) = sandboxBlocks p ++
        [({ dataBlockId := block.id, title := block.name, description := block.description,
            removeAriaLabel := "Retirer " ++ block.name ++ " du bac à sable" } :
            BlockElement)] ∧
      dropHandler host blockId p =
        addBlockToSandbox host block { p with sandboxDragDepth := 0, dragOver := false }) := by
  constructor
  · intro h
    unfold dropHandler
    by_cases h0 : blockId = ""
    · simp [h0]
    · rcases h with h | h
      · exact absurd h h0
      · simp [h0, h]
  · intro block h
    have h0 : blockId ≠ "" := hkeys (blockId, block) (mapGet_some_mem _ _ _ h)
    have heq : dropHandler host blockId p =
        addBlockToSandbox host block { p with sandboxDragDepth := 0, dragOver := false } := by
      unfold dropHandler
      simp [h0, h]
    refine ⟨?_, heq⟩
    rw [heq, sandboxBlocks_add]
    rfl

/-- Witness of C7: with the pump in the catalog, a drop of `unknown-id` changes
nothing in the sandbox, and a drop of `p1` appends the entry of the pump. -/
theorem dropHandler_lookup_witness :
    ((∀ e ∈ (run plainHost (start plainHost)
          [Event.fetchSettled (okResponse [pump])]).equipmentById, e.1 ≠ "") ∧
      mapGet (run plainHost (start plainHost)
          [Event.fetchSettled (okResponse [pump])]).equipmentById "unknown-id" = none ∧
      mapGet (run plainHost (start plainHost)
          [Event.fetchSettled (okResponse [pump])]).equipmentById "p1" = some pump) ∧
    (dropHandler plainHost "unknown-id" (run plainHost (start plainHost)
        [Event.fetchSettled (okResponse [pump])])).sandboxArea =
      (run plainHost (start plainHost) [Event.fetchSettled (okResponse [pump])]).sandboxArea ∧
    sandboxBlocks (dropHandler plainHost "p1" (run plainHost (start plainHost)
        [Event.fetchSettled (okResponse [pump])])) =
      sandboxBlocks (run plainHost (start plainHost)
        [Event.fetchSettled (okResponse [pump])]) ++
        [({ dataBlockId := "p1", title := "Pump", description := "Moves fluid",
            removeAriaLabel := "Retirer Pump du bac à sable" } : BlockElement)] :=
  ⟨⟨by decide, by decide, by decide⟩,
    congrArg Page.sandboxArea
      ((dropHandler_lookup plainHost (run plainHost (start plainHost)
        [Event.fetchSettled (okResponse [pump])]) "unknown-id" (by decide)).1
        (Or.inr (by decide))),
    ((dropHandler_lookup plainHost (run plainHost (start plainHost)
        [Event.fetchSettled (okResponse [pump])]) "p1" (by decide)).2 pump (by decide)).1⟩

/-! ## A response without the `equipment` field -/

/-- C9 (the code at the failing input): for a response with a success status
whose body is an object without the `equipment` field, `fetchEquipment` leaves
the page as it is (nothing is added to the library, no error box) and resolves
to `undefined`, and `init` throws a `TypeError`; a response with a non-success
status, or a rejected request, appends one error box and `init` returns
normally. -/
theorem init_missing_equipment_field (host : Host) (p : Page) (status : Nat)
    (body : ResponseBody) (message : String) :
    fetchEquipment host (FetchOutcome.response true status (ResponseBody.object none)) p
      = (p, none) ∧
    init host (FetchOutcome.response true status (ResponseBody.object none)) p
      = Except.error JsError.typeError ∧
    init host (FetchOutcome.response false status body) p
      = Except.ok (displayError host
          ("La requête a échoué avec le statut " ++ toString status) p) ∧
    init host (FetchOutcome.rejected message) p
      = Except.ok (displayError host message p) := by
  refine ⟨?_, ?_, ?_, ?_⟩
  · simp [fetchEquipment]
  · simp [init, fetchEquipment]
  · simp [init, fetchEquipment]
  · simp [init, fetchEquipment]

/-! ## Pages without a stray id

On a host whose parser never finds an element of id `sandbox-empty-message` in
the markup the script inserts, the library never holds such an element and the
sandbox keeps its invariant: one empty message when there is no block, none
otherwise. -/

theorem count_removeNthBlock (n : Nat) (l : List SandboxNode) :
    (removeNthBlock n l).count SandboxNode.emptyMessage = l.count SandboxNode.emptyMessage := by
  induction l generalizing n with
  | nil => simp [removeNthBlock]
  | cons a t ih =>
    cases a with
    | emptyMessage => simp [removeNthBlock, ih]
    | sandboxBlock e =>
      cases n with
      | zero => simp [removeNthBlock]
      | succ m => simp [removeNthBlock, ih]

theorem count_show_of_no_library (host : Host) (p : Page) (hlib : libraryEmptyMessageIds p = 0) :
    emptyMessageCount (showEmptySandboxMessage host p) = max 1 (emptyMessageCount p) := by
  cases hs : sandboxHasEmptyMessage p with
  | true =>
    have hc := (sandboxHasEmptyMessage_iff_count p).1 hs
    rw [show_of_found host p (by
      rw [getEmptyMessageElement_of_sandbox host p hlib hs]; simp)]
    omega
  | false =>
    have hc : emptyMessageCount p = 0 := by
      have := (sandboxHasEmptyMessage_iff_count p).not.1 (by simp [hs])
      omega
    rw [show_of_not_found host p ((getEmptyMessageElement_eq_none_iff host p).2 ⟨hlib, hs⟩)]
    simp only [emptyMessageCount] at hc ⊢
    simp [hc]

theorem hide_of_no_library (host : Host) (p : Page) (hlib : libraryEmptyMessageIds p = 0) :
    (hideEmptySandboxMessage host p).equipmentList = p.equipmentList ∧
    emptyMessageCount (hideEmptySandboxMessage host p) = emptyMessageCount p - 1 := by
  cases hs : sandboxHasEmptyMessage p with
  | true =>
    unfold hideEmptySandboxMessage
    rw [getEmptyMessageElement_of_sandbox host p hlib hs]
    simp [emptyMessageCount, List.count_erase_self]
  | false =>
    have hc : emptyMessageCount p = 0 := by
      have := (sandboxHasEmptyMessage_iff_count p).not.1 (by simp [hs])
      omega
    unfold hideEmptySandboxMessage
    rw [(getEmptyMessageElement_eq_none_iff host p).2 ⟨hlib, hs⟩]
    simp [hc]

theorem sandboxInv_add (host : Host) (block : Item) (p : Page) (hp : SandboxInv p) :
    SandboxInv (addBlockToSandbox host block p) := by
  obtain ⟨hlib, hc⟩ := hp
  obtain ⟨h1, h2⟩ := hide_of_no_library host p hlib
  refine ⟨?_, ?_⟩
  · simpa [addBlockToSandbox, libraryEmptyMessageIds, h1] using hlib
  · rw [sandboxBlocks_add]
    have hne : sandboxBlocks p ++ [blockElementOf block] ≠ [] := by simp
    rw [if_neg hne]
    simp only [emptyMessageCount] at h2
    simp only [addBlockToSandbox, emptyMessageCount, List.count_append, h2]
    simp only [emptyMessageCount] at hc
    split at hc <;> simp [hc]

theorem sandboxInv_remove (host : Host) (n : Nat) (p : Page) (hp : SandboxInv p) :
    SandboxInv (removeButtonClick host n p) := by
  obtain ⟨hlib, hc⟩ := hp
  obtain ⟨-, -, -, h4, h5⟩ := remove_frame host n p
  refine ⟨by simpa [libraryEmptyMessageIds, h4] using hlib, ?_⟩
  rw [h5]
  unfold removeButtonClick
  simp only
  split
  · rename_i h
    have h2 := (hasSandboxBlock_iff _).1 h
    simp only [sandboxBlocks_eq, blocksOf_removeNthBlock] at h2
    have hne : sandboxBlocks p ≠ [] := by
      intro h0
      apply h2
      simp [← sandboxBlocks_eq, h0]
    rw [if_neg hne] at hc
    simp only [sandboxBlocks_eq] at hne ⊢
    rw [if_neg h2]
    simpa [emptyMessageCount, count_removeNthBlock] using hc
  · rename_i h
    have h2 := (hasSandboxBlock_iff _).not.1 h
    simp only [sandboxBlocks_eq, blocksOf_removeNthBlock, ne_eq, not_not] at h2
    rw [count_show_of_no_library host
      { p with sandboxArea := removeNthBlock n p.sandboxArea } hlib]
    simp only [sandboxBlocks_eq, h2, if_true]
    have hle : emptyMessageCount p ≤ 1 := by
      split at hc <;> omega
    have : emptyMessageCount { p with sandboxArea := removeNthBlock n p.sandboxArea } =
        emptyMessageCount p := by
      simp [emptyMessageCount, count_removeNthBlock]
    omega

theorem sandboxInv_reset (host : Host) (p : Page) (hp : SandboxInv p) :
    SandboxInv (resetClick host p) := by
  rw [resetClick_of_no_library host p hp.1]
  exact ⟨hp.1, by simp [emptyMessageCount, sandboxBlocks_eq]⟩

theorem sandboxInv_of_eq {p q : Page} (h1 : q.sandboxArea = p.sandboxArea)
    (h2 : q.equipmentList = p.equipmentList) (hp : SandboxInv p) : SandboxInv q := by
  simpa [SandboxInv, libraryEmptyMessageIds, emptyMessageCount, sandboxBlocks_eq, h1, h2]
    using hp

theorem sandboxInv_drop (host : Host) (blockId : String) (p : Page) (hp : SandboxInv p) :
    SandboxInv (dropHandler host blockId p) := by
  have h1 : SandboxInv { p with sandboxDragDepth := 0, dragOver := false } :=
    sandboxInv_of_eq rfl rfl hp
  unfold dropHandler
  simp only
  split
  · exact h1
  · split
    · exact h1
    · exact sandboxInv_add host _ _ h1

theorem libraryIds_displayError (host : Host) (hplain : ∀ markup, host.emptyMessageIds markup = 0)
    (message : String) (p : Page) :
    libraryEmptyMessageIds (displayError host message p) = libraryEmptyMessageIds p := by
  simp [libraryEmptyMessageIds, displayError, LibraryNode.emptyMessageIds, hplain]

theorem libraryIds_foldl_registerBlock (host : Host)
    (hplain : ∀ markup, host.emptyMessageIds markup = 0) (blocks : List Item) (p : Page) :
    libraryEmptyMessageIds (blocks.foldl (registerBlock host) p) = libraryEmptyMessageIds p := by
  induction blocks generalizing p with
  | nil => rfl
  | cons b t ih =>
    simp only [List.foldl_cons]
    rw [ih]
    simp [libraryEmptyMessageIds, registerBlock, createEquipmentCard,
      LibraryNode.emptyMessageIds, hplain]

theorem libraryIds_fetchEquipment (host : Host)
    (hplain : ∀ markup, host.emptyMessageIds markup = 0) (r : FetchOutcome) (p : Page) :
    libraryEmptyMessageIds (fetchEquipment host r p).1 = libraryEmptyMessageIds p := by
  unfold fetchEquipment
  cases r with
  | rejected message => exact libraryIds_displayError host hplain message p
  | response ok status body =>
    cases ok <;> cases body <;> simp [libraryIds_displayError host hplain]

theorem libraryIds_fetchSettled (host : Host)
    (hplain : ∀ markup, host.emptyMessageIds markup = 0) (r : FetchOutcome) (p : Page) :
    libraryEmptyMessageIds (step host p (Event.fetchSettled r)) = libraryEmptyMessageIds p := by
  have h1 := libraryIds_fetchEquipment host hplain r p
  simp only [step, init]
  rcases hf : fetchEquipment host r p with ⟨p1, _ | blocks⟩
  · rw [hf] at h1
    exact h1
  · rw [hf] at h1
    simp only at h1 ⊢
    split
    · rename_i q hq
      split at hq
      · cases hq; exact h1
      · cases hq
        rw [libraryIds_foldl_registerBlock host hplain]
        exact h1
    · exact h1

theorem sandboxInv_step (host : Host) (hplain : ∀ markup, host.emptyMessageIds markup = 0)
    (p : Page) (e : Event) (hp : SandboxInv p) : SandboxInv (step host p e) := by
  cases e with
  | activateCard block => exact sandboxInv_add host block p hp
  | removeClick n => exact sandboxInv_remove host n p hp
  | resetClick => exact sandboxInv_reset host p hp
  | dragenter => exact sandboxInv_of_eq rfl rfl hp
  | dragover => exact hp
  | dragleave =>
    refine sandboxInv_of_eq ?_ ?_ hp
    · simp only [step, dragleave]
      split <;> rfl
    · simp only [step, dragleave]
      split <;> rfl
  | drop blockId => exact sandboxInv_drop host blockId p hp
  | fetchSettled r =>
    have h1 := (step_fetchSettled_frame host r p).1
    have h2 := libraryIds_fetchSettled host hplain r p
    obtain ⟨hlib, hc⟩ := hp
    refine ⟨by rw [h2]; exact hlib, ?_⟩
    simpa [emptyMessageCount, sandboxBlocks_eq, h1] using hc

/-- On a host whose parser never finds the id in inserted markup, every page
reached from the page left by `setupInteractions` shows the empty message in the
sandbox area if and only if the sandbox holds no block, and never more than
once. -/
theorem sandboxInv_run_of_plain_markup (host : Host)
    (hplain : ∀ markup, host.emptyMessageIds markup = 0) (events : List Event) :
    (sandboxHasEmptyMessage (run host (start host) events) = true ↔
      sandboxBlocks (run host (start host) events) = []) ∧
    emptyMessageCount (run host (start host) events) ≤ 1 := by
  have hstart : SandboxInv (start host) := by
    rw [start_eq]
    exact ⟨rfl, rfl⟩
  have hrun : ∀ (events : List Event) (p : Page), SandboxInv p → SandboxInv (run host p events) := by
    intro events
    induction events with
    | nil => exact fun p hp => hp
    | cons e t ih => exact fun p hp => ih (step host p e) (sandboxInv_step host hplain p e hp)
  obtain ⟨_, hc⟩ := hrun events (start host) hstart
  rw [sandboxHasEmptyMessage_iff_count]
  split at hc <;> simp [*]

end Frontend
